import Mathlib

/-!
Verification of the particle-emission / particle-update engine
(`src/lib.rs`, `src/update.rs`) against its natural-language specification.

Shallow embedding conventions:
* `Duration` and `Instant` are modelled as `Nat` nanoseconds
  (`Duration` is a `u64` seconds + `u32` sub-second nanoseconds pair; all
  arithmetic used by the source — `+`, `saturating_sub`, `>=`,
  `checked_duration_since` — coincides with `Nat` arithmetic on the total
  nanosecond count).
* `f32` values are modelled by `F32`: an exact rational tagged value plus the
  IEEE-754 special values `inf`, `neginf`, `nan`.  Rounding and overflow of
  finite operations are idealized away (`fin a + fin b = fin (a+b)`); the
  special-value propagation rules follow IEEE-754 exactly, which is what the
  non-finiteness claims depend on.  Division by `fin 0` models division by
  IEEE positive zero (the only zero the source can produce from
  `Time::delta_seconds`).
* `Transform` is three component groups (`Vec3` translation, `Quat` rotation,
  `Vec3` scale), each a `Fin n → F32` vector; the `glam` operators the source
  uses on them (`Sub`, `Add`, `Div<f32>`, `Mul<f32>` — all componentwise) are
  embedded componentwise.  `GlobalTransform` is modelled by its TRS
  decomposition, so `GlobalTransform::compute_transform` and
  `Transform::into::<GlobalTransform>` are the identity in the model.
* The emitter's RNG (`nanorand::WyRand`, an external library) is modelled by
  an abstract draw stream `draws : Nat → Nat × Nat` giving the results of the
  two `generate_range` calls of each loop iteration; the library's contract
  that `generate_range(0..=b)` lies in `[0, b]` becomes a hypothesis bounding
  the stream.
* A Rust `panic!` (from `Option::unwrap`) is modelled by returning `none`.
-/

/-! ## IEEE-flavoured f32 scalars -/

inductive F32 where
  | fin (q : ℚ)
  | inf
  | neginf
  | nan
deriving DecidableEq

namespace F32

def isFinite : F32 → Bool
  | fin _ => true
  | _ => false

def add : F32 → F32 → F32
  | nan, _ => nan
  | _, nan => nan
  | fin a, fin b => fin (a + b)
  | fin _, inf => inf
  | fin _, neginf => neginf
  | inf, fin _ => inf
  | neginf, fin _ => neginf
  | inf, inf => inf
  | neginf, neginf => neginf
  | inf, neginf => nan
  | neginf, inf => nan

def sub : F32 → F32 → F32
  | nan, _ => nan
  | _, nan => nan
  | fin a, fin b => fin (a - b)
  | fin _, inf => neginf
  | fin _, neginf => inf
  | inf, fin _ => inf
  | neginf, fin _ => neginf
  | inf, inf => nan
  | neginf, neginf => nan
  | inf, neginf => inf
  | neginf, inf => neginf

def mul : F32 → F32 → F32
  | nan, _ => nan
  | _, nan => nan
  | fin a, fin b => fin (a * b)
  | inf, fin b => if 0 < b then inf else if b < 0 then neginf else nan
  | fin a, inf => if 0 < a then inf else if a < 0 then neginf else nan
  | neginf, fin b => if 0 < b then neginf else if b < 0 then inf else nan
  | fin a, neginf => if 0 < a then neginf else if a < 0 then inf else nan
  | inf, inf => inf
  | neginf, neginf => inf
  | inf, neginf => neginf
  | neginf, inf => neginf

/-- Division; a `fin 0` divisor is IEEE positive zero. -/
def div : F32 → F32 → F32
  | nan, _ => nan
  | _, nan => nan
  | fin a, fin b =>
      if b = 0 then (if a = 0 then nan else if 0 < a then inf else neginf)
      else fin (a / b)
  | fin _, inf => fin 0
  | fin _, neginf => fin 0
  | inf, fin b => if 0 ≤ b then inf else neginf
  | neginf, fin b => if 0 ≤ b then neginf else inf
  | inf, inf => nan
  | neginf, neginf => nan
  | inf, neginf => nan
  | neginf, inf => nan

end F32

instance : Add F32 := ⟨F32.add⟩
instance : Sub F32 := ⟨F32.sub⟩
instance : Mul F32 := ⟨F32.mul⟩
instance : Div F32 := ⟨F32.div⟩

/-! ## Vectors, quaternions, transforms -/

/-- `glam::Vec3`, componentwise. -/
abbrev FVec3 := Fin 3 → F32

/-- `glam::Quat` as its four components `(x, y, z, w)`. -/
abbrev FQuat := Fin 4 → F32

/-- Componentwise binary operation (the `glam` `Add`/`Sub` impls for
`Vec3` and `Quat` are componentwise). -/
def cw2 {n : Nat} (f : F32 → F32 → F32) (a b : Fin n → F32) : Fin n → F32 :=
  fun i => f (a i) (b i)

/-- Multiplication of a vector/quaternion by an `f32` scalar (componentwise in
`glam`). -/
def cwMul {n : Nat} (a : Fin n → F32) (s : F32) : Fin n → F32 :=
  fun i => a i * s

/-- Division of a vector/quaternion by an `f32` scalar (componentwise in
`glam`). -/
def cwDiv {n : Nat} (a : Fin n → F32) (s : F32) : Fin n → F32 :=
  fun i => a i / s

/-- `bevy::Transform`: translation, rotation, scale. -/
structure FTransform where
  translation : FVec3
  rotation : FQuat
  scale : FVec3
deriving DecidableEq

/-- `Transform::IDENTITY`: zero translation, identity quaternion `(0,0,0,1)`,
unit scale. -/
def FTransform.identity : FTransform where
  translation := fun _ => F32.fin 0
  rotation := fun i => if i.val = 3 then F32.fin 1 else F32.fin 0
  scale := fun _ => F32.fin 1

/-- `glam` lerp: `self + (rhs - self) * s`, componentwise. -/
def cwLerp {n : Nat} (a b : Fin n → F32) (s : F32) : Fin n → F32 :=
  cw2 F32.add a (cwMul (cw2 F32.sub b a) s)

/-! ## Time -/

/-- Nanoseconds per second (`Duration` sub-second resolution). -/
def NANOS : Nat := 1000000000

/-- `Duration::as_secs` of a nanosecond count. -/
def durSecs (d : Nat) : Nat := d / NANOS

/-- `Duration::subsec_nanos` of a nanosecond count. -/
def durSubsecNanos (d : Nat) : Nat := d % NANOS

/-- `Duration::new(secs, nanos)` as a nanosecond count (the source only calls
it with `nanos < NANOS`, so no carry is involved). -/
def durNew (secs nanos : Nat) : Nat := secs * NANOS + nanos

/-- `Duration::as_secs_f32` / `Instant` differences converted to seconds,
idealized as the exact rational. -/
def secsF32 (d : Nat) : F32 := F32.fin ((d : ℚ) / (NANOS : ℚ))

/-! ## The spawn scheduler (`spawn_particles`, src/lib.rs lines 181-256) -/

/-- One particle-creation event of the catch-up loop: the `TimeCreated` stamp
and world-pose argument handed to the emitter's factory, and whether the new
entity was attached as a child of the emitter. -/
structure Spawned where
  stamp : Nat
  poseArg : FTransform
  parented : Bool
deriving DecidableEq

/-- The jitter `Duration` sampled on loop iteration `k`
(`Duration::new(rng.generate_range(0..=jitter.as_secs()),
rng.generate_range(0..=jitter.subsec_nanos()))`); `draws k` is the pair of
raw values the two `generate_range` calls return. -/
def jitterSample (draws : Nat → Nat × Nat) (k : Nat) : Nat :=
  durNew (draws k).1 (draws k).2

/-- Advance the extrapolated pose after a spawn (src/lib.rs lines 238-243):
`compute_transform`, add `step` componentwise, convert back — the conversions
are the identity in the TRS model. -/
def FTransform.stepBy (curr step : FTransform) : FTransform where
  translation := cw2 F32.add curr.translation step.translation
  rotation := cw2 F32.add curr.rotation step.rotation
  scale := cw2 F32.add curr.scale step.scale

/-- The catch-up `while remaining >= interval` loop (src/lib.rs lines
222-244), as structural recursion on a fuel bound.  Each iteration removes at
least `interval ≥ 1` nanosecond from `remaining`, so `fuel := remaining` at
the top call (see `spawn_particles_emitter`) is always sufficient when
`0 < interval`; an `interval` of zero makes the source loop diverge (a
precondition violation per the spec, §7), and every theorem below assumes
`0 < interval`. -/
def spawnLoop (interval : Nat) (draws : Nat → Nat × Nat) (ugc : Bool)
    (step : FTransform) :
    Nat → Nat → Nat → Nat → FTransform → List Spawned × Nat
  | 0, _, _, lastSpawn, _ => ([], lastSpawn)
  | fuel + 1, k, remaining, lastSpawn, curr =>
    if interval ≤ remaining then
      let rest := spawnLoop interval draws ugc step fuel (k + 1)
        (remaining - (interval + jitterSample draws k))
        (lastSpawn + interval) (curr.stepBy step)
      (⟨lastSpawn + interval, curr, !ugc⟩ :: rest.1, rest.2)
    else ([], lastSpawn)

/-- The `Spewer` fields the scheduler reads and writes (the factory and RNG
are passed separately: the factory's invocations are recorded in the
`Spawned` list, the RNG as the `draws` stream). -/
structure SpewerState where
  interval : Nat
  jitter : Nat
  lastSpawn : Nat
  useGlobalCoords : Bool

/-- Velocity extrapolated from the frame-to-frame world-transform delta
(src/lib.rs lines 196-206): componentwise `(curr - prev) / dt`. -/
def computeVel (prev curr : FTransform) (dt : F32) : FTransform where
  translation := cwDiv (cw2 F32.sub curr.translation prev.translation) dt
  rotation := cwDiv (cw2 F32.sub curr.rotation prev.rotation) dt
  scale := cwDiv (cw2 F32.sub curr.scale prev.scale) dt

/-- Per-spawn-step pose increment (src/lib.rs lines 207-212):
`vel * interval.as_secs_f32()`, componentwise. -/
def stepOf (vel : FTransform) (intervalSecs : F32) : FTransform where
  translation := cwMul vel.translation intervalSecs
  rotation := cwMul vel.rotation intervalSecs
  scale := cwMul vel.scale intervalSecs

/-- The emitter's extrapolation velocity (src/lib.rs lines 196-206): the
frame-to-frame delta divided by `delta_seconds` when a
`PreviousGlobalTransform` tracker is present, `Transform::IDENTITY`
otherwise. -/
def velOf (prevGlobalXform : Option FTransform) (globalXform : FTransform)
    (dtSecs : F32) : FTransform :=
  match prevGlobalXform with
  | some prev => computeVel prev globalXform dtSecs
  | none => FTransform.identity

/-- The pose seeding the catch-up loop (src/lib.rs lines 213-217): the
previous frame's world transform when a tracker is present, this frame's
world transform otherwise. -/
def seedPose (prevGlobalXform : Option FTransform) (globalXform : FTransform) :
    FTransform :=
  match prevGlobalXform with
  | some prev => prev
  | none => globalXform

/-- One emitter's pass of the `spawn_particles` system (src/lib.rs lines
186-254).  Returns the recorded factory invocations and the emitter's new
`last_spawn`.  `lastUpdate = none` models `Time::last_update()` returning
`None` (the `let Some .. else continue` skip); a `now` earlier than
`last_spawn` makes `checked_duration_since` return `None` (the second skip). -/
def spawn_particles_emitter (sp : SpewerState) (draws : Nat → Nat × Nat)
    (globalXform : FTransform) (prevGlobalXform : Option FTransform)
    (dtSecs : F32) (lastUpdate : Option Nat) : List Spawned × Nat :=
  let step := stepOf (velOf prevGlobalXform globalXform dtSecs) (secsF32 sp.interval)
  let curr := seedPose prevGlobalXform globalXform
  match lastUpdate with
  | none => ([], sp.lastSpawn)
  | some now =>
    if now < sp.lastSpawn then ([], sp.lastSpawn)
    else spawnLoop sp.interval draws sp.useGlobalCoords step
      (now - sp.lastSpawn) 0 (now - sp.lastSpawn) sp.lastSpawn curr

/-- Running the scheduler once per frame over a list of frame timestamps
(each frame's `Time::last_update`), threading the emitter's `last_spawn`.
The emitter carries no previous-pose tracker components (`Option<&mut
PreviousGlobalTransform>` is `None`), matching a bare emitter entity; `xfOf`
and `dtOf` give each frame's world transform and `delta_seconds`. -/
def runFrames (interval jitter : Nat) (ugc : Bool) (draws : Nat → Nat × Nat)
    (xfOf : Nat → FTransform) (dtOf : Nat → F32) :
    List Nat → Nat → List Spawned × Nat
  | [], lastSpawn => ([], lastSpawn)
  | t :: ts, lastSpawn =>
    let r := spawn_particles_emitter ⟨interval, jitter, lastSpawn, ugc⟩ draws
      (xfOf t) none (dtOf t) (some t)
    let rest := runFrames interval jitter ugc draws xfOf dtOf ts r.2
    (r.1 ++ rest.1, rest.2)

/-- The grid of `TimeCreated` stamps `start + (a+1)*I, …, start + b*I`. -/
def gridStamps (start interval a b : Nat) : List Nat :=
  (List.range (b - a)).map (fun k => start + (a + k + 1) * interval)

/-- The timestamp of the final frame in a frame list (`d` if empty). -/
def lastTime (times : List Nat) (d : Nat) : Nat :=
  times.foldl (fun _ t => t) d


/-! ## Update behaviors (src/update.rs) -/

/-- `last_update.duration_since(time_created).as_secs_f32()`:
`Instant::duration_since` saturates at zero. -/
def durationSinceSecs (later earlier : Nat) : F32 := secsF32 (later - earlier)

/-- The `Linear` behavior component (src/update.rs lines 5-8). -/
structure Linear where
  velocity : FVec3

/-- `Linear::tick` for one particle (src/update.rs lines 10-23):
`translation = initial_translation + velocity * elapsed_secs`.  The source
calls `t.last_update().unwrap()`: with no timestamp it panics, modelled by
`none`. -/
def Linear.tickOne (item : Linear) (lastUpdate : Option Nat) (tCreated : Nat)
    (initXform xform : FTransform) : Option FTransform :=
  match lastUpdate with
  | none => none
  | some lu =>
    some { xform with
      translation := cw2 F32.add initXform.translation
        (cwMul item.velocity (durationSinceSecs lu tCreated)) }

/-- The `TargetScale` behavior component (src/update.rs lines 61-64). -/
structure TargetScale where
  scale : FVec3

/-- `TargetScale::tick` for one particle (src/update.rs lines 66-87):
`scale = initial_scale.lerp(target, elapsed_secs / lifetime_secs)`; the
interpolation parameter is not clamped.  `t.last_update().unwrap()` panics
(`none`) when no timestamp exists. -/
def TargetScale.tickOne (target : TargetScale) (lastUpdate : Option Nat)
    (tCreated lifetime : Nat) (initXform xform : FTransform) :
    Option FTransform :=
  match lastUpdate with
  | none => none
  | some lu =>
    some { xform with
      scale := cwLerp initXform.scale target.scale
        (durationSinceSecs lu tCreated / secsF32 lifetime) }

/-- The `TargetTransform` behavior component (src/update.rs lines 89-92). -/
structure TargetTransform where
  final_xform : FTransform

/-- `TargetTransform::tick` for one particle (src/update.rs lines 94-114):
the whole transform is replaced by the componentwise interpolation of the
initial transform toward `final_xform` with unclamped
`s = elapsed_secs / lifetime_secs` — `lerp` for translation and scale,
`slerp` for rotation.  `Quat::slerp` is external math-library code
(`glam`), taken as the parameter `slerpF`; `t.last_update().unwrap()`
panics (`none`) when no timestamp exists. -/
def TargetTransform.tickOne (slerpF : FQuat → FQuat → F32 → FQuat)
    (item : TargetTransform) (lastUpdate : Option Nat)
    (tCreated lifetime : Nat) (initXform _xform : FTransform) :
    Option FTransform :=
  match lastUpdate with
  | none => none
  | some lu =>
    let s := durationSinceSecs lu tCreated / secsF32 lifetime
    some { translation := cwLerp initXform.translation item.final_xform.translation s,
           rotation := slerpF initXform.rotation item.final_xform.rotation s,
           scale := cwLerp initXform.scale item.final_xform.scale s }

/-! ## Particle bundle and the default factory (src/lib.rs) -/

/-- The particle components a factory creates (`ParticleBundle`, src/lib.rs
lines 29-36; the mesh/material rendering handles are out of the claims'
scope). -/
structure ParticleM where
  transform : FTransform
  timeCreated : Nat
  lifetime : Nat
  initialTransform : FTransform
  initialGlobalTransform : FTransform
deriving DecidableEq

/-- `ParticleBundle::default()`: the `MaterialMeshBundle` default carries the
identity `Transform`; `Lifetime::default()` is one second (src/lib.rs lines
71-75); `TimeCreated::default()` is `Instant::now()` at construction time
(src/lib.rs lines 56-60), modelled by the `now` parameter; the initial
transform snapshots default to identity. -/
def ParticleBundle.defaultM (now : Nat) : ParticleM where
  transform := FTransform.identity
  timeCreated := now
  lifetime := NANOS
  initialTransform := FTransform.identity
  initialGlobalTransform := FTransform.identity

/-- `default_factory` (src/lib.rs lines 132-138): both the world-pose and
the `TimeCreated` arguments are ignored (`_` patterns in the source) and a
`ParticleBundle::default()` is spawned; `now` is the wall-clock instant at
which that default bundle is constructed. -/
def default_factory (_worldPose : FTransform) (_timeCreated : Nat)
    (now : Nat) : ParticleM :=
  ParticleBundle.defaultM now

/-- The full `Spewer` component (src/lib.rs lines 107-115).  The factory is
the function producing the created particle from the pose and stamp
arguments plus the construction instant; `rngSeed` models
`WyRand::new_seed(seed)` (`none` = the nondeterministically seeded
`WyRand::new()`). -/
structure SpewerM where
  factory : FTransform → Nat → Nat → ParticleM
  interval : Nat
  jitter : Nat
  lastSpawn : Nat
  useGlobalCoords : Bool
  rngSeed : Option Nat

/-- Nanosecond value of `Duration::from_secs_f32(1.0 / 60.0)`, the default
interval; its exact rounding is immaterial to every claim. -/
def defaultInterval : Nat := 16666668

/-- `Spewer::default()` (src/lib.rs lines 140-152): the `default_factory`,
a sixtieth-of-a-second interval, zero jitter, `last_spawn = Instant::now()`
(the `now` parameter), local coordinates, unseeded RNG. -/
def Spewer.default (now : Nat) : SpewerM where
  factory := default_factory
  interval := defaultInterval
  jitter := 0
  lastSpawn := now
  useGlobalCoords := false
  rngSeed := none

/-- `Spewer::seeded(seed)` (src/lib.rs lines 162-167): only the RNG differs
from the default. -/
def Spewer.seeded (seed : Nat) (now : Nat) : SpewerM :=
  { Spewer.default now with rngSeed := some seed }

/-! ## System registration (`ParticlesPlugin::build`, src/lib.rs lines 12-27) -/

/-- The systems the plugin registers. -/
inductive SystemId where
  | spawnParticles
  | linearTick
  | angularTick
  | mulScaleTick
  | addScaleTick
  | targetScaleTick
  | targetTransformTick
  | dynParticleUpdateTick
  | handleLifetimes
deriving DecidableEq

/-- The host schedule labels the plugin uses. -/
inductive SchedLabel where
  | preUpdate
  | update
deriving DecidableEq

/-- A plugin's system registrations: which system goes into which schedule,
and the explicitly declared execution-order constraints (from `.chain()`,
`.before()`, `.after()`); a pair `(a, b)` constrains `a` to run before
`b`. -/
structure AppSystems where
  registered : List (SchedLabel × SystemId)
  constraints : List (SystemId × SystemId)

/-- `ParticlesPlugin::build`: `spawn_particles` in `PreUpdate` and the
eight-system tuple in `Update`.  The tuple is passed to `add_systems`
without `.chain()`, and no `.before()`/`.after()` appears anywhere in the
source, so the declared constraint list is empty. -/
def ParticlesPlugin.build : AppSystems where
  registered :=
    [(SchedLabel.preUpdate, SystemId.spawnParticles),
     (SchedLabel.update, SystemId.linearTick),
     (SchedLabel.update, SystemId.angularTick),
     (SchedLabel.update, SystemId.mulScaleTick),
     (SchedLabel.update, SystemId.addScaleTick),
     (SchedLabel.update, SystemId.targetScaleTick),
     (SchedLabel.update, SystemId.targetTransformTick),
     (SchedLabel.update, SystemId.dynParticleUpdateTick),
     (SchedLabel.update, SystemId.handleLifetimes)]
  constraints := []

/-- The systems registered in one schedule, in registration order. -/
def scheduleSystems (app : AppSystems) (sched : SchedLabel) : List SystemId :=
  app.registered.filterMap (fun p => if p.1 = sched then some p.2 else none)

/-- Modelled from the spec: the host's executor (an out-of-scope external
collaborator, spec §1/§5) may run the systems of one schedule in any order
that is a permutation of the registered set and respects every declared
before-constraint. -/
def admissibleOrder (app : AppSystems) (sched : SchedLabel)
    (order : List SystemId) : Prop :=
  List.Perm order (scheduleSystems app sched)
  ∧ ∀ c ∈ app.constraints, ∀ i j : Nat, ∀ hi : i < order.length,
      ∀ hj : j < order.length,
      order.get ⟨i, hi⟩ = c.1 → order.get ⟨j, hj⟩ = c.2 → i < j

/-! ## Concrete vectors and a uniform component view -/

/-- A vector with `x` in slot 0 and zeros elsewhere. -/
def vec3X (x : ℚ) : FVec3 := fun i => if i.val = 0 then F32.fin x else F32.fin 0

/-- A uniform vector. -/
def vec3All (x : ℚ) : FVec3 := fun _ => F32.fin x

/-- All ten transform components through one index: `0-2` translation,
`3-6` rotation, `7-9` scale. -/
def FTransform.comp (tf : FTransform) (i : Fin 10) : F32 :=
  if h3 : i.val < 3 then tf.translation ⟨i.val, h3⟩
  else if h7 : i.val < 7 then tf.rotation ⟨i.val - 3, by omega⟩
  else tf.scale ⟨i.val - 7, by omega⟩

/-! ## Structure of the catch-up loop -/

/-- Every execution of the catch-up loop produces stamps on the exact grid
`lastSpawn + I, lastSpawn + 2I, …` and leaves `last_spawn` advanced by
exactly `interval` per iteration (`*last_spawn += interval`, never by
`interval + jitter`). -/
theorem spawnLoop_grid (interval : Nat) (draws : Nat → Nat × Nat) (ugc : Bool)
    (step : FTransform) :
    ∀ (fuel k remaining lastSpawn : Nat) (curr : FTransform),
    (spawnLoop interval draws ugc step fuel k remaining lastSpawn curr).1.map Spawned.stamp
      = (List.range
          (spawnLoop interval draws ugc step fuel k remaining lastSpawn curr).1.length).map
          (fun j => lastSpawn + (j + 1) * interval)
    ∧ (spawnLoop interval draws ugc step fuel k remaining lastSpawn curr).2
      = lastSpawn
        + (spawnLoop interval draws ugc step fuel k remaining lastSpawn curr).1.length
          * interval := by
  intro fuel
  induction fuel with
  | zero =>
    intro k remaining lastSpawn curr
    simp [spawnLoop]
  | succ fuel ih =>
    intro k remaining lastSpawn curr
    by_cases h : interval ≤ remaining
    · obtain ⟨ih1, ih2⟩ := ih (k + 1) (remaining - (interval + jitterSample draws k))
        (lastSpawn + interval) (curr.stepBy step)
      simp only [spawnLoop, if_pos h, List.map_cons, List.length_cons]
      refine ⟨?_, ?_⟩
      · rw [ih1, List.range_succ_eq_map, List.map_cons, List.map_map]
        refine congrArg₂ _ (by ring) (List.map_congr_left ?_)
        intro j _
        simp only [Function.comp, Nat.succ_eq_add_one]
        ring
      · rw [ih2]; ring
    · simp [spawnLoop, if_neg h]

/-- With a zero jitter bound the two `generate_range(0..=0)` draws are forced
to zero, so each iteration consumes exactly `interval` from the backlog and
the loop runs `⌊remaining / interval⌋` times. -/
theorem spawnLoop_length_jitter_zero (interval : Nat) (hI : 0 < interval)
    (draws : Nat → Nat × Nat) (hd0 : ∀ k, jitterSample draws k = 0)
    (ugc : Bool) (step : FTransform) :
    ∀ (fuel k remaining lastSpawn : Nat) (curr : FTransform), remaining ≤ fuel →
    (spawnLoop interval draws ugc step fuel k remaining lastSpawn curr).1.length
      = remaining / interval := by
  intro fuel
  induction fuel with
  | zero =>
    intro k remaining lastSpawn curr hr
    have : remaining = 0 := Nat.le_zero.mp hr
    subst this
    simp [spawnLoop]
  | succ fuel ih =>
    intro k remaining lastSpawn curr hr
    by_cases h : interval ≤ remaining
    · have hrec : remaining - (interval + jitterSample draws k) ≤ fuel := by
        rw [hd0 k]
        have h1 : remaining - (interval + 0) ≤ remaining - 1 :=
          Nat.sub_le_sub_left (by omega) remaining
        omega
      simp only [spawnLoop, if_pos h, List.length_cons]
      rw [ih (k + 1) _ (lastSpawn + interval) (curr.stepBy step) hrec, hd0 k,
        Nat.add_zero]
      exact (Nat.div_eq_sub_div hI h).symm
    · simp only [spawnLoop, if_neg h, List.length_nil]
      exact (Nat.div_eq_of_lt (Nat.lt_of_not_le h)).symm

/-- Zero draw components give a zero jitter sample. -/
theorem jitterSample_eq_zero (draws : Nat → Nat × Nat)
    (hd : ∀ k, (draws k).1 ≤ durSecs 0 ∧ (draws k).2 ≤ durSubsecNanos 0) :
    ∀ k, jitterSample draws k = 0 := by
  intro k
  have h1 := (hd k).1
  have h2 := (hd k).2
  simp [durSecs, durSubsecNanos] at h1 h2
  simp [jitterSample, durNew, h1, h2]

/-- C1: with `interval = I > 0` and `jitter = 0`, one scheduler pass over a
single elapsed backlog of duration `T` (i.e. `now - last_spawn = T`) invokes
the factory exactly `⌊T / I⌋` times, and the `TimeCreated` stamp of the
`k`-th invocation is `start + k * I` where `start` is the emitter's
`last_spawn` before the pass. -/
theorem C1_jitter_zero_count_and_stamps
    (I T start : Nat) (hI : 0 < I) (draws : Nat → Nat × Nat)
    (hd : ∀ k, (draws k).1 ≤ durSecs 0 ∧ (draws k).2 ≤ durSubsecNanos 0)
    (ugc : Bool) (globalXform : FTransform) (prevGlobalXform : Option FTransform)
    (dtSecs : F32) :
    (spawn_particles_emitter ⟨I, 0, start, ugc⟩ draws globalXform prevGlobalXform
        dtSecs (some (start + T))).1.length = T / I
    ∧ (spawn_particles_emitter ⟨I, 0, start, ugc⟩ draws globalXform prevGlobalXform
        dtSecs (some (start + T))).1.map Spawned.stamp
      = (List.range (T / I)).map (fun k => start + (k + 1) * I) := by
  have hskip : ¬ (start + T < start) := by omega
  have hrem : start + T - start = T := by omega
  simp only [spawn_particles_emitter, if_neg hskip, hrem]
  have hlen := spawnLoop_length_jitter_zero I hI draws (jitterSample_eq_zero draws hd)
    ugc (stepOf (velOf prevGlobalXform globalXform dtSecs) (secsF32 I))
    T 0 T start (seedPose prevGlobalXform globalXform) (le_refl T)
  have hgrid := (spawnLoop_grid I draws ugc
    (stepOf (velOf prevGlobalXform globalXform dtSecs) (secsF32 I))
    T 0 T start (seedPose prevGlobalXform globalXform)).1
  exact ⟨hlen, by rw [hgrid, hlen]⟩

/-- Witness for C1 at `I = 2`, `T = 7`, `start = 10`: three spawns with
stamps `12, 14, 16`. -/
theorem C1_jitter_zero_count_and_stamps_witness :
    (spawn_particles_emitter ⟨2, 0, 10, true⟩ (fun _ => (0, 0))
        FTransform.identity none (F32.fin 0) (some (10 + 7))).1.length = 7 / 2
    ∧ (spawn_particles_emitter ⟨2, 0, 10, true⟩ (fun _ => (0, 0))
        FTransform.identity none (F32.fin 0) (some (10 + 7))).1.map Spawned.stamp
      = (List.range (7 / 2)).map (fun k => 10 + (k + 1) * 2) :=
  C1_jitter_zero_count_and_stamps 2 7 10 (by decide) (fun _ => (0, 0))
    (fun _ => ⟨Nat.le_refl 0, Nat.le_refl 0⟩) true FTransform.identity none (F32.fin 0)

/-- C7: an emitter's `last_spawn` never moves backward across a scheduler
pass, and every mutation advances it by exactly one whole `interval` per
spawn iteration: the final value is `last_spawn + count * interval` and the
stamps (the successive `last_spawn` values) form the exact interval grid. -/
theorem C7_last_spawn_monotone_whole_intervals
    (sp : SpewerState) (_hI : 0 < sp.interval) (draws : Nat → Nat × Nat)
    (globalXform : FTransform) (prevGlobalXform : Option FTransform)
    (dtSecs : F32) (lastUpdate : Option Nat) :
    (spawn_particles_emitter sp draws globalXform prevGlobalXform dtSecs lastUpdate).2
      = sp.lastSpawn
        + (spawn_particles_emitter sp draws globalXform prevGlobalXform dtSecs
            lastUpdate).1.length * sp.interval
    ∧ sp.lastSpawn
        ≤ (spawn_particles_emitter sp draws globalXform prevGlobalXform dtSecs lastUpdate).2
    ∧ (spawn_particles_emitter sp draws globalXform prevGlobalXform dtSecs
          lastUpdate).1.map Spawned.stamp
      = (List.range
          ((spawn_particles_emitter sp draws globalXform prevGlobalXform dtSecs
              lastUpdate).1.length)).map
          (fun j => sp.lastSpawn + (j + 1) * sp.interval) := by
  match lastUpdate with
  | none => simp [spawn_particles_emitter]
  | some now =>
    by_cases hskip : now < sp.lastSpawn
    · simp [spawn_particles_emitter, if_pos hskip]
    · simp only [spawn_particles_emitter, if_neg hskip]
      obtain ⟨h1, h2⟩ := spawnLoop_grid sp.interval draws sp.useGlobalCoords _
        (now - sp.lastSpawn) 0 (now - sp.lastSpawn) sp.lastSpawn _
      exact ⟨h2, by omega, h1⟩

/-- Witness for C7 at a concrete emitter (`interval = 3`, `last_spawn = 5`,
`now = 12`). -/
theorem C7_last_spawn_monotone_whole_intervals_witness :
    (spawn_particles_emitter ⟨3, 1, 5, false⟩ (fun _ => (0, 1))
        FTransform.identity none (F32.fin 0) (some 12)).2
      = 5 + (spawn_particles_emitter ⟨3, 1, 5, false⟩ (fun _ => (0, 1))
          FTransform.identity none (F32.fin 0) (some 12)).1.length * 3
    ∧ 5 ≤ (spawn_particles_emitter ⟨3, 1, 5, false⟩ (fun _ => (0, 1))
          FTransform.identity none (F32.fin 0) (some 12)).2
    ∧ (spawn_particles_emitter ⟨3, 1, 5, false⟩ (fun _ => (0, 1))
          FTransform.identity none (F32.fin 0) (some 12)).1.map Spawned.stamp
      = (List.range ((spawn_particles_emitter ⟨3, 1, 5, false⟩ (fun _ => (0, 1))
          FTransform.identity none (F32.fin 0) (some 12)).1.length)).map
          (fun j => 5 + (j + 1) * 3) :=
  C7_last_spawn_monotone_whole_intervals ⟨3, 1, 5, false⟩ (by decide)
    (fun _ => (0, 1)) FTransform.identity none (F32.fin 0) (some 12)

/-! ## Jitter bounds and spawn-count bounds (C5) -/

/-- The sampled jitter `Duration::new(s, n)` never exceeds the configured
bound `J` when the two draws respect the `generate_range(0..=·)` contract:
`s ≤ J.as_secs` and `n ≤ J.subsec_nanos` give
`s * NANOS + n ≤ (J / NANOS) * NANOS + J % NANOS = J`. -/
theorem jitterSample_le (J : Nat) (draws : Nat → Nat × Nat)
    (hd : ∀ k, (draws k).1 ≤ durSecs J ∧ (draws k).2 ≤ durSubsecNanos J) :
    ∀ k, jitterSample draws k ≤ J := by
  intro k
  have h1 : (draws k).1 * NANOS ≤ durSecs J * NANOS :=
    Nat.mul_le_mul_right NANOS (hd k).1
  have h3 : durSecs J * NANOS + durSubsecNanos J = J := by
    simp only [durSecs, durSubsecNanos, Nat.mul_comm]
    exact Nat.div_add_mod J NANOS
  calc jitterSample draws k = (draws k).1 * NANOS + (draws k).2 := rfl
    _ ≤ durSecs J * NANOS + durSubsecNanos J := Nat.add_le_add h1 (hd k).2
    _ = J := h3

/-- Each loop iteration consumes at least `interval` of the backlog, so the
spawn count never exceeds `⌊remaining / interval⌋`. -/
theorem spawnLoop_length_le (interval : Nat) (hI : 0 < interval)
    (draws : Nat → Nat × Nat) (ugc : Bool) (step : FTransform) :
    ∀ (fuel k remaining lastSpawn : Nat) (curr : FTransform),
    (spawnLoop interval draws ugc step fuel k remaining lastSpawn curr).1.length
      ≤ remaining / interval := by
  intro fuel
  induction fuel with
  | zero =>
    intro k remaining lastSpawn curr
    simp [spawnLoop]
  | succ fuel ih =>
    intro k remaining lastSpawn curr
    by_cases h : interval ≤ remaining
    · simp only [spawnLoop, if_pos h, List.length_cons]
      have hmono : remaining - (interval + jitterSample draws k) ≤ remaining - interval :=
        Nat.sub_le_sub_left (Nat.le_add_right interval _) remaining
      have hrec := le_trans
        (ih (k + 1) (remaining - (interval + jitterSample draws k))
          (lastSpawn + interval) (curr.stepBy step))
        (Nat.div_le_div_right hmono)
      have hdiv := Nat.div_eq_sub_div hI h
      omega
    · simp [spawnLoop, if_neg h]

/-- Each loop iteration consumes at most `interval + J` of the backlog, so
the spawn count is at least `⌊remaining / (interval + J)⌋`. -/
theorem spawnLoop_length_ge (interval J : Nat) (hI : 0 < interval)
    (draws : Nat → Nat × Nat) (hs : ∀ k, jitterSample draws k ≤ J)
    (ugc : Bool) (step : FTransform) :
    ∀ (fuel k remaining lastSpawn : Nat) (curr : FTransform), remaining ≤ fuel →
    remaining / (interval + J)
      ≤ (spawnLoop interval draws ugc step fuel k remaining lastSpawn curr).1.length := by
  intro fuel
  induction fuel with
  | zero =>
    intro k remaining lastSpawn curr hr
    have : remaining = 0 := Nat.le_zero.mp hr
    subst this
    simp [spawnLoop]
  | succ fuel ih =>
    intro k remaining lastSpawn curr hr
    by_cases h : interval ≤ remaining
    · simp only [spawnLoop, if_pos h, List.length_cons]
      have hrec : remaining - (interval + jitterSample draws k) ≤ fuel := by
        have h1 : remaining - (interval + jitterSample draws k) ≤ remaining - interval :=
          Nat.sub_le_sub_left (Nat.le_add_right interval _) remaining
        omega
      have hmono : remaining - (interval + J)
          ≤ remaining - (interval + jitterSample draws k) :=
        Nat.sub_le_sub_left (Nat.add_le_add_left (hs k) interval) remaining
      have hih := ih (k + 1) (remaining - (interval + jitterSample draws k))
        (lastSpawn + interval) (curr.stepBy step) hrec
      have hlow := le_trans (Nat.div_le_div_right hmono) hih
      by_cases hIJ : interval + J ≤ remaining
      · have hdiv := Nat.div_eq_sub_div (by omega : 0 < interval + J) hIJ
        omega
      · have : remaining / (interval + J) = 0 := Nat.div_eq_of_lt (Nat.lt_of_not_le hIJ)
        omega
    · simp only [spawnLoop, if_neg h, List.length_nil]
      have : remaining / (interval + J) = 0 :=
        Nat.div_eq_of_lt (lt_of_lt_of_le (Nat.lt_of_not_le h) (Nat.le_add_right _ _))
      omega

/-- C5: with jitter bound `J`, every jitter duration the scheduler samples
lies in `[0, J]` (whole-second and sub-second draws bounded independently),
so each catch-up iteration subtracts between `I` and `I + J` from the
backlog, and the spawn count from a single elapsed backlog of duration `T`
lies in `[⌊T / (I + J)⌋, ⌊T / I⌋]`. -/
theorem C5_jitter_in_bound_count_interval (I J T start : Nat) (hI : 0 < I)
    (draws : Nat → Nat × Nat)
    (hd : ∀ k, (draws k).1 ≤ durSecs J ∧ (draws k).2 ≤ durSubsecNanos J)
    (ugc : Bool) (globalXform : FTransform) (prevGlobalXform : Option FTransform)
    (dtSecs : F32) :
    (∀ k, jitterSample draws k ≤ J)
    ∧ T / (I + J)
      ≤ (spawn_particles_emitter ⟨I, J, start, ugc⟩ draws globalXform
          prevGlobalXform dtSecs (some (start + T))).1.length
    ∧ (spawn_particles_emitter ⟨I, J, start, ugc⟩ draws globalXform
        prevGlobalXform dtSecs (some (start + T))).1.length ≤ T / I := by
  have hskip : ¬ (start + T < start) := by omega
  have hrem : start + T - start = T := by omega
  refine ⟨jitterSample_le J draws hd, ?_, ?_⟩
  · simp only [spawn_particles_emitter, if_neg hskip, hrem]
    exact spawnLoop_length_ge I J hI draws (jitterSample_le J draws hd) ugc
      (stepOf (velOf prevGlobalXform globalXform dtSecs) (secsF32 I))
      T 0 T start (seedPose prevGlobalXform globalXform) (le_refl T)
  · simp only [spawn_particles_emitter, if_neg hskip, hrem]
    exact spawnLoop_length_le I hI draws ugc
      (stepOf (velOf prevGlobalXform globalXform dtSecs) (secsF32 I))
      T 0 T start (seedPose prevGlobalXform globalXform)

/-- Witness for C5 at `I = 2`, `J = 1`, `T = 7` (raw nanosecond units),
with every draw pair `(0, 1)`. -/
theorem C5_jitter_in_bound_count_interval_witness :
    (∀ k, jitterSample (fun _ => (0, 1)) k ≤ 1)
    ∧ 7 / (2 + 1)
      ≤ (spawn_particles_emitter ⟨2, 1, 0, false⟩ (fun _ => (0, 1))
          FTransform.identity none (F32.fin 0) (some (0 + 7))).1.length
    ∧ (spawn_particles_emitter ⟨2, 1, 0, false⟩ (fun _ => (0, 1))
        FTransform.identity none (F32.fin 0) (some (0 + 7))).1.length ≤ 7 / 2 :=
  C5_jitter_in_bound_count_interval 2 1 7 0 (by decide) (fun _ => (0, 1))
    (fun _ => ⟨(by decide : (0 : Nat) ≤ durSecs 1),
      (by decide : (1 : Nat) ≤ durSubsecNanos 1)⟩)
    false FTransform.identity none (F32.fin 0)

/-! ## Catch-up safety under frame subdivision (C6) -/

/-- Adjacent stamp-grid segments concatenate. -/
theorem gridStamps_append (start I a b c : Nat) (hab : a ≤ b) (hbc : b ≤ c) :
    gridStamps start I a b ++ gridStamps start I b c = gridStamps start I a c := by
  unfold gridStamps
  have h1 : c - a = (b - a) + (c - b) := by omega
  rw [h1, List.range_add, List.map_append, List.map_map]
  refine congrArg _ (List.map_congr_left ?_)
  intro j _
  simp only [Function.comp]
  have h2 : a + (b - a + j) + 1 = b + j + 1 := by omega
  rw [h2]

/-- The last frame time is the default or a member of the list. -/
theorem lastTime_mem_or (d : Nat) (ts : List Nat) :
    lastTime ts d = d ∨ lastTime ts d ∈ ts := by
  induction ts generalizing d with
  | nil => exact Or.inl rfl
  | cons u ts ih =>
    have hcons : lastTime (u :: ts) d = lastTime ts u := rfl
    rcases ih u with h | h
    · exact Or.inr (by rw [hcons, h]; exact List.mem_cons_self u ts)
    · exact Or.inr (by rw [hcons]; exact List.mem_cons_of_mem u h)

/-- A single scheduler frame at time `t`, starting from a `last_spawn` on the
grid point `start + b * I`, with zero jitter: it emits exactly the grid
stamps with indices `b+1 … ⌊(t - start) / I⌋` and parks `last_spawn` on the
grid point indexed `⌊(t - start) / I⌋`. -/
theorem frame_stamps (I : Nat) (hI : 0 < I) (draws : Nat → Nat × Nat)
    (hd0 : ∀ k, jitterSample draws k = 0) (ugc : Bool) (gx : FTransform)
    (dt : F32) (start b t : Nat) (hbt : start + b * I ≤ t) :
    (spawn_particles_emitter ⟨I, 0, start + b * I, ugc⟩ draws gx none dt
        (some t)).1.map Spawned.stamp
      = gridStamps start I b ((t - start) / I)
    ∧ (spawn_particles_emitter ⟨I, 0, start + b * I, ugc⟩ draws gx none dt
        (some t)).2
      = start + ((t - start) / I) * I := by
  have hskip : ¬ (t < start + b * I) := by omega
  have hx : b * I ≤ t - start := by omega
  have hc : (t - (start + b * I)) / I + b = (t - start) / I := by
    have h1 := Nat.add_mul_div_left (t - start - b * I) b hI
    rw [Nat.mul_comm I b, Nat.sub_add_cancel hx] at h1
    have harg : t - (start + b * I) = t - start - b * I := by omega
    rw [harg]
    omega
  have hble : b ≤ (t - start) / I := by
    rw [← hc]
    exact Nat.le_add_left b _
  simp only [spawn_particles_emitter, if_neg hskip]
  obtain ⟨hg, hl⟩ := spawnLoop_grid I draws ugc
    (stepOf (velOf none gx dt) (secsF32 I)) (t - (start + b * I)) 0
    (t - (start + b * I)) (start + b * I) (seedPose none gx)
  have hlen := spawnLoop_length_jitter_zero I hI draws hd0 ugc
    (stepOf (velOf none gx dt) (secsF32 I)) (t - (start + b * I)) 0
    (t - (start + b * I)) (start + b * I) (seedPose none gx) (le_refl _)
  constructor
  · rw [hg, hlen]
    unfold gridStamps
    have hr : (t - start) / I - b = (t - (start + b * I)) / I := by omega
    rw [hr]
    refine List.map_congr_left ?_
    intro j _
    ring
  · rw [hl, hlen]
    have h2 : (t - (start + b * I)) / I = (t - start) / I - b := by omega
    rw [h2, Nat.sub_mul]
    have h3 : b * I ≤ ((t - start) / I) * I := Nat.mul_le_mul_right I hble
    omega

/-- The grid index of the last frame time does not depend on whether the
fold's default is the frame time itself or its rounded-down grid point. -/
theorem lastTime_grid_div (I start : Nat) (hI : 0 < I) (ts : List Nat)
    (t : Nat) :
    (lastTime ts (start + ((t - start) / I) * I) - start) / I
      = (lastTime ts t - start) / I := by
  cases ts with
  | nil =>
    have h1 : lastTime ([] : List Nat) (start + ((t - start) / I) * I)
        = start + ((t - start) / I) * I := rfl
    have h2 : lastTime ([] : List Nat) t = t := rfl
    rw [h1, h2]
    have h3 : start + ((t - start) / I) * I - start = ((t - start) / I) * I := by
      omega
    rw [h3, Nat.mul_div_cancel _ hI]
  | cons u ts2 => rfl

/-- Running the zero-jitter scheduler once per frame over a monotone list of
frame times, from a `last_spawn` on grid point `b`: the concatenated stamps
are the grid segment up to the last frame's grid index, and `last_spawn`
ends on that grid point — independent of how the elapsed time was cut into
frames. -/
theorem runFrames_stamps_jitter_zero (I : Nat) (hI : 0 < I)
    (draws : Nat → Nat × Nat) (hd0 : ∀ k, jitterSample draws k = 0)
    (ugc : Bool) (xfOf : Nat → FTransform) (dtOf : Nat → F32) (start : Nat) :
    ∀ (times : List Nat) (b : Nat), times.Pairwise (· ≤ ·) →
    (∀ t ∈ times, start + b * I ≤ t) →
    (runFrames I 0 ugc draws xfOf dtOf times (start + b * I)).1.map Spawned.stamp
      = gridStamps start I b ((lastTime times (start + b * I) - start) / I)
    ∧ (runFrames I 0 ugc draws xfOf dtOf times (start + b * I)).2
      = start + ((lastTime times (start + b * I) - start) / I) * I := by
  intro times
  induction times with
  | nil =>
    intro b _ _
    have h1 : lastTime ([] : List Nat) (start + b * I) = start + b * I := rfl
    have h2 : (start + b * I - start) / I = b := by
      have : start + b * I - start = b * I := by omega
      rw [this, Nat.mul_div_cancel b hI]
    rw [h1, h2]
    constructor
    · simp [runFrames, gridStamps]
    · simp [runFrames]
  | cons t ts ih =>
    intro b hpair hge
    obtain ⟨hpt, hpts⟩ := List.pairwise_cons.mp hpair
    have hbt : start + b * I ≤ t := hge t (List.mem_cons_self t ts)
    obtain ⟨hf1, hf2⟩ := frame_stamps I hI draws hd0 ugc (xfOf t) (dtOf t)
      start b t hbt
    have hble : b ≤ (t - start) / I := by
      rw [Nat.le_div_iff_mul_le hI]
      omega
    have hb'ge : ∀ u ∈ ts, start + ((t - start) / I) * I ≤ u := by
      intro u hu
      have htu : t ≤ u := hpt u hu
      have hms : ((t - start) / I) * I ≤ t - start := Nat.div_mul_le_self _ _
      omega
    obtain ⟨ih1, ih2⟩ := ih ((t - start) / I) hpts hb'ge
    rw [lastTime_grid_div I start hI ts t] at ih1 ih2
    have hlt : t ≤ lastTime ts t := by
      rcases lastTime_mem_or t ts with h | h
      · omega
      · exact hpt _ h
    have hb'B : (t - start) / I ≤ (lastTime ts t - start) / I :=
      Nat.div_le_div_right (by omega)
    have hcons : lastTime (t :: ts) (start + b * I) = lastTime ts t := rfl
    simp only [runFrames, hcons]
    rw [hf2, List.map_append, hf1, ih1, ih2]
    exact ⟨gridStamps_append start I b ((t - start) / I)
      ((lastTime ts t - start) / I) hble hb'B, rfl⟩

/-- C1's single-pass stamps, restated as a grid segment from index 0. -/
theorem single_pass_gridStamps (I T start : Nat) (hI : 0 < I)
    (draws : Nat → Nat × Nat)
    (hd : ∀ k, (draws k).1 ≤ durSecs 0 ∧ (draws k).2 ≤ durSubsecNanos 0)
    (ugc : Bool) (globalXform : FTransform) (prevGlobalXform : Option FTransform)
    (dtSecs : F32) :
    (spawn_particles_emitter ⟨I, 0, start, ugc⟩ draws globalXform prevGlobalXform
        dtSecs (some (start + T))).1.map Spawned.stamp
      = gridStamps start I 0 (T / I) := by
  rw [(C1_jitter_zero_count_and_stamps I T start hI draws hd ugc globalXform
    prevGlobalXform dtSecs).2]
  unfold gridStamps
  rw [Nat.sub_zero]
  refine List.map_congr_left ?_
  intro j _
  have h : j + 1 = 0 + j + 1 := by omega
  rw [← h]

/-- C6: with zero jitter and `interval = I > 0`, chopping a total elapsed
duration `T` into any monotone sequence of frames (the last frame at
`start + T`) and running the scheduler once per frame produces exactly the
same spawn count and the same sequence of `TimeCreated` stamps as one pass
with the single step `T` — no spawn is lost or duplicated by how finely the
frame loop is subdivided. -/
theorem C6_subdivision_same_spawns (I T start : Nat) (hI : 0 < I)
    (draws draws2 : Nat → Nat × Nat)
    (hd : ∀ k, (draws k).1 ≤ durSecs 0 ∧ (draws k).2 ≤ durSubsecNanos 0)
    (hd2 : ∀ k, (draws2 k).1 ≤ durSecs 0 ∧ (draws2 k).2 ≤ durSubsecNanos 0)
    (ugc : Bool) (xfOf : Nat → FTransform) (dtOf : Nat → F32)
    (globalXform : FTransform) (prevGlobalXform : Option FTransform) (dtSecs : F32)
    (times : List Nat) (hpair : times.Pairwise (· ≤ ·))
    (hge : ∀ t ∈ times, start ≤ t) (hlast : lastTime times start = start + T) :
    (runFrames I 0 ugc draws xfOf dtOf times start).1.map Spawned.stamp
      = (spawn_particles_emitter ⟨I, 0, start, ugc⟩ draws2 globalXform
          prevGlobalXform dtSecs (some (start + T))).1.map Spawned.stamp
    ∧ (runFrames I 0 ugc draws xfOf dtOf times start).1.length
      = (spawn_particles_emitter ⟨I, 0, start, ugc⟩ draws2 globalXform
          prevGlobalXform dtSecs (some (start + T))).1.length := by
  have h0 : start + 0 * I = start := by ring
  have hge0 : ∀ t ∈ times, start + 0 * I ≤ t := by
    intro t ht
    rw [h0]
    exact hge t ht
  have hmulti := (runFrames_stamps_jitter_zero I hI draws
    (jitterSample_eq_zero draws hd) ugc xfOf dtOf start times 0 hpair hge0).1
  rw [h0, hlast] at hmulti
  have hTsub : start + T - start = T := by omega
  rw [hTsub] at hmulti
  have hsingle := single_pass_gridStamps I T start hI draws2 hd2 ugc globalXform
    prevGlobalXform dtSecs
  have hstamps : (runFrames I 0 ugc draws xfOf dtOf times start).1.map Spawned.stamp
      = (spawn_particles_emitter ⟨I, 0, start, ugc⟩ draws2 globalXform
          prevGlobalXform dtSecs (some (start + T))).1.map Spawned.stamp := by
    rw [hmulti, hsingle]
  refine ⟨hstamps, ?_⟩
  have := congrArg List.length hstamps
  simpa using this

/-- Witness for C6: `I = 2`, `T = 5`, frames at times `2` and `5`. -/
theorem C6_subdivision_same_spawns_witness :
    (runFrames 2 0 true (fun _ => (0, 0)) (fun _ => FTransform.identity)
        (fun _ => F32.fin 0) [2, 5] 0).1.map Spawned.stamp
      = (spawn_particles_emitter ⟨2, 0, 0, true⟩ (fun _ => (0, 0))
          FTransform.identity none (F32.fin 0) (some (0 + 5))).1.map Spawned.stamp
    ∧ (runFrames 2 0 true (fun _ => (0, 0)) (fun _ => FTransform.identity)
        (fun _ => F32.fin 0) [2, 5] 0).1.length
      = (spawn_particles_emitter ⟨2, 0, 0, true⟩ (fun _ => (0, 0))
          FTransform.identity none (F32.fin 0) (some (0 + 5))).1.length :=
  C6_subdivision_same_spawns 2 5 0 (by decide) (fun _ => (0, 0)) (fun _ => (0, 0))
    (fun _ => ⟨Nat.le_refl 0, Nat.le_refl 0⟩) (fun _ => ⟨Nat.le_refl 0, Nat.le_refl 0⟩)
    true (fun _ => FTransform.identity) (fun _ => F32.fin 0)
    FTransform.identity none (F32.fin 0) [2, 5] (by decide) (by decide) (by decide)

/-! ## Missing-timestamp behavior of the absolute-formula ticks (C2) -/

/-- C2 counterexample: with no `last_update` timestamp, `Linear::tick` (and
likewise `TargetScale::tick`, `TargetTransform::tick`) evaluates
`t.last_update().unwrap()`, which panics — modelled as `none` — instead of
skipping the entity and leaving its transform unchanged (`some` of the
unchanged transform). -/
theorem C2_no_timestamp_counterexample :
    Linear.tickOne ⟨vec3All 1⟩ none 0 FTransform.identity FTransform.identity
      = none
    ∧ TargetScale.tickOne ⟨vec3All 2⟩ none 0 NANOS FTransform.identity
        FTransform.identity = none
    ∧ TargetTransform.tickOne (fun a _ _ => a) ⟨FTransform.identity⟩ none 0
        NANOS FTransform.identity FTransform.identity = none
    ∧ Linear.tickOne ⟨vec3All 1⟩ none 0 FTransform.identity FTransform.identity
        ≠ some FTransform.identity :=
  ⟨rfl, rfl, rfl, by simp [Linear.tickOne]⟩

/-- C2 (amended): when the clock has not yet produced a `last_update`
timestamp, the per-frame tick of every absolute-formula behavior (`Linear`,
`TargetScale`, `TargetTransform`) fails — the `unwrap` panics — rather than
skipping the entity; with a timestamp present the update is a single
complete assignment. -/
theorem C2_no_timestamp_panics (v : Linear) (ts : TargetScale)
    (slerpF : FQuat → FQuat → F32 → FQuat) (tt : TargetTransform)
    (tCreated lifetime : Nat) (initXform xform : FTransform) :
    Linear.tickOne v none tCreated initXform xform = none
    ∧ TargetScale.tickOne ts none tCreated lifetime initXform xform = none
    ∧ TargetTransform.tickOne slerpF tt none tCreated lifetime initXform xform
        = none
    ∧ (∀ lu : Nat,
        (Linear.tickOne v (some lu) tCreated initXform xform).isSome = true)
    ∧ (∀ lu : Nat,
        (TargetTransform.tickOne slerpF tt (some lu) tCreated lifetime initXform
          xform).isSome = true) :=
  ⟨rfl, rfl, rfl, fun _ => rfl, fun _ => rfl⟩

/-! ## The default factory ignores its arguments (C9) -/

/-- C9: the default factory — installed by both `Spewer::default` and
`Spewer::seeded` — ignores the world-pose and `TimeCreated` arguments: the
particle it creates is the default bundle, whose transform is the identity
and whose `TimeCreated` is the instant at which the bundle is constructed
(`now`), not the scheduler's historically-correct stamp. -/
theorem C9_default_factory_ignores_args (pose pose2 : FTransform)
    (stamp stamp2 now seed : Nat) :
    default_factory pose stamp now = default_factory pose2 stamp2 now
    ∧ (default_factory pose stamp now).transform = FTransform.identity
    ∧ (default_factory pose stamp now).timeCreated = now
    ∧ (Spewer.default now).factory = default_factory
    ∧ (Spewer.seeded seed now).factory = default_factory :=
  ⟨rfl, rfl, rfl, rfl, rfl⟩

/-! ## The reaper's execution order is not constrained (C3) -/

/-- C3: `ParticlesPlugin::build` declares no ordering constraints (the
`Update` systems are a plain tuple, no `.chain()`/`.before()`/`.after()`),
so an execution order of the `Update` schedule that runs `handle_lifetimes`
first — before every update behavior — is admissible for the host executor:
the claimed "reaper runs after all update behaviors" is not enforced. -/
theorem C3_reaper_order_not_enforced :
    admissibleOrder ParticlesPlugin.build SchedLabel.update
      [SystemId.handleLifetimes, SystemId.linearTick, SystemId.angularTick,
       SystemId.mulScaleTick, SystemId.addScaleTick, SystemId.targetScaleTick,
       SystemId.targetTransformTick, SystemId.dynParticleUpdateTick]
    ∧ ([SystemId.handleLifetimes, SystemId.linearTick, SystemId.angularTick,
        SystemId.mulScaleTick, SystemId.addScaleTick, SystemId.targetScaleTick,
        SystemId.targetTransformTick,
        SystemId.dynParticleUpdateTick].head? = some SystemId.handleLifetimes)
    ∧ ParticlesPlugin.build.constraints = [] := by
  refine ⟨⟨by decide, ?_⟩, rfl, rfl⟩
  intro c hc
  simp [ParticlesPlugin.build] at hc

/-! ## Parenting and pose argument of spawned particles (C4) -/

/-- Every spawn of a loop pass is parented exactly when
`use_global_coords` is false (`if !use_global_coords { add_child }`). -/
theorem spawnLoop_parented (interval : Nat) (draws : Nat → Nat × Nat)
    (ugc : Bool) (step : FTransform) :
    ∀ (fuel k remaining lastSpawn : Nat) (curr : FTransform),
    ∀ s ∈ (spawnLoop interval draws ugc step fuel k remaining lastSpawn curr).1,
    s.parented = !ugc := by
  intro fuel
  induction fuel with
  | zero =>
    intro k remaining lastSpawn curr s hs
    simp [spawnLoop] at hs
  | succ fuel ih =>
    intro k remaining lastSpawn curr s hs
    by_cases h : interval ≤ remaining
    · simp only [spawnLoop, if_pos h, List.mem_cons] at hs
      rcases hs with hs | hs
      · rw [hs]
      · exact ih (k + 1) _ (lastSpawn + interval) (curr.stepBy step) s hs
    · simp [spawnLoop, if_neg h] at hs

/-- The first spawn of a loop pass receives the seeded current pose as its
factory pose argument. -/
theorem spawnLoop_head_pose (interval : Nat) (draws : Nat → Nat × Nat)
    (ugc : Bool) (step : FTransform)
    (fuel k remaining lastSpawn : Nat) (curr : FTransform) (s : Spawned)
    (hh : (spawnLoop interval draws ugc step fuel k remaining lastSpawn
      curr).1.head? = some s) :
    s.poseArg = curr := by
  match fuel with
  | 0 => simp [spawnLoop] at hh
  | fuel + 1 =>
    by_cases h : interval ≤ remaining
    · simp only [spawnLoop, if_pos h, List.head?_cons, Option.some.injEq] at hh
      rw [← hh]
    · simp [spawnLoop, if_neg h] at hh

/-- C4 counterexample: an emitter in global-coordinate mode at world pose
`P ≠ identity` (translation `(1,0,0)`), running the default factory over a
one-interval backlog, creates exactly one particle; it is indeed not
parented and the scheduler hands `P` to the factory, but the particle's own
transform is the identity — the default bundle — not the emitter's world
pose `P`, because the factory ignores the pose argument. -/
theorem C4_global_pose_not_baked_counterexample :
    (spawn_particles_emitter ⟨1, 0, 0, true⟩ (fun _ => (0, 0))
        { FTransform.identity with translation := vec3X 1 } none (F32.fin 0)
        (some 1)).1
      = [⟨1, { FTransform.identity with translation := vec3X 1 }, false⟩]
    ∧ ((Spewer.default 99).factory
        { FTransform.identity with translation := vec3X 1 } 1 99).transform
      = FTransform.identity
    ∧ FTransform.identity ≠ { FTransform.identity with translation := vec3X 1 } := by
  refine ⟨by decide, rfl, by decide⟩

/-- C4 (amended): in global-coordinate mode no spawn is parented (in local
mode every spawn is), and the scheduler passes the seeded current world pose
— the emitter's world transform, when no previous-pose tracker is present —
to the factory as the first spawn's pose argument; whether that pose is
baked into the particle's own transform is the factory's doing, and the
default factory ignores it, leaving the particle transform the identity. -/
theorem C4_global_unparented_pose_passed_to_factory
    (sp : SpewerState) (draws : Nat → Nat × Nat) (gx : FTransform)
    (pgx : Option FTransform) (dt : F32) (lu : Option Nat) (s s0 : Spawned)
    (hs : s ∈ (spawn_particles_emitter sp draws gx pgx dt lu).1)
    (hh : (spawn_particles_emitter sp draws gx pgx dt lu).1.head? = some s0)
    (pose : FTransform) (stamp now : Nat) :
    s.parented = !sp.useGlobalCoords
    ∧ s0.poseArg = seedPose pgx gx
    ∧ ((Spewer.default now).factory pose stamp now).transform
      = FTransform.identity := by
  refine ⟨?_, ?_, rfl⟩
  · match lu with
    | none => simp [spawn_particles_emitter] at hs
    | some nowt =>
      by_cases hskip : nowt < sp.lastSpawn
      · simp [spawn_particles_emitter, if_pos hskip] at hs
      · simp only [spawn_particles_emitter, if_neg hskip] at hs
        exact spawnLoop_parented sp.interval draws sp.useGlobalCoords _ _ _ _ _ _ s hs
  · match lu with
    | none => simp [spawn_particles_emitter] at hh
    | some nowt =>
      by_cases hskip : nowt < sp.lastSpawn
      · simp [spawn_particles_emitter, if_pos hskip] at hh
      · simp only [spawn_particles_emitter, if_neg hskip] at hh
        exact spawnLoop_head_pose sp.interval draws sp.useGlobalCoords _ _ _ _ _ _ s0 hh

/-- Witness for the amended C4 at the counterexample's input. -/
theorem C4_global_unparented_pose_passed_to_factory_witness :
    Spawned.parented ⟨1, { FTransform.identity with translation := vec3X 1 },
        false⟩ = !true
    ∧ Spawned.poseArg ⟨1, { FTransform.identity with translation := vec3X 1 },
        false⟩
      = seedPose none { FTransform.identity with translation := vec3X 1 }
    ∧ ((Spewer.default 99).factory FTransform.identity 1 99).transform
      = FTransform.identity :=
  C4_global_unparented_pose_passed_to_factory ⟨1, 0, 0, true⟩ (fun _ => (0, 0))
    { FTransform.identity with translation := vec3X 1 } none (F32.fin 0)
    (some 1)
    ⟨1, { FTransform.identity with translation := vec3X 1 }, false⟩
    ⟨1, { FTransform.identity with translation := vec3X 1 }, false⟩
    (by decide) (by decide) FTransform.identity 1 99

/-! ## Non-finite velocity on a zero-delta frame (C10) -/

/-- Adding any non-finite IEEE value yields a non-finite value. -/
theorem F32_add_nonfinite (c s : F32) (hs : s.isFinite = false) :
    (F32.add c s).isFinite = false := by
  cases s <;> cases c <;> simp_all [F32.add, F32.isFinite]

/-- Multiplying a non-finite IEEE value by anything yields a non-finite
value. -/
theorem F32_mul_nonfinite_left (s c : F32) (hs : s.isFinite = false) :
    (F32.mul s c).isFinite = false := by
  cases s <;> cases c <;>
    simp_all [F32.mul, F32.isFinite] <;> split_ifs <;> rfl

/-- The uniform component view of the extrapolation velocity. -/
theorem comp_computeVel (prev curr : FTransform) (dt : F32) (i : Fin 10) :
    (computeVel prev curr dt).comp i
      = F32.div (F32.sub (curr.comp i) (prev.comp i)) dt := by
  unfold FTransform.comp computeVel cwDiv cw2
  split_ifs <;> rfl

/-- The uniform component view of the per-spawn step. -/
theorem comp_stepOf (vel : FTransform) (s : F32) (i : Fin 10) :
    (stepOf vel s).comp i = F32.mul (vel.comp i) s := by
  unfold FTransform.comp stepOf cwMul
  split_ifs <;> rfl

/-- The uniform component view of the pose advance. -/
theorem comp_stepBy (curr step : FTransform) (i : Fin 10) :
    (curr.stepBy step).comp i = F32.add (curr.comp i) (step.comp i) := by
  unfold FTransform.comp FTransform.stepBy cw2
  split_ifs <;> rfl

/-- Once the running pose has a non-finite component, every pose the loop
hands to the factory keeps that component non-finite. -/
theorem spawnLoop_poses_nonfinite (interval : Nat) (draws : Nat → Nat × Nat)
    (ugc : Bool) (step : FTransform) (i : Fin 10) :
    ∀ (fuel k remaining lastSpawn : Nat) (curr : FTransform),
    (curr.comp i).isFinite = false →
    ∀ s ∈ (spawnLoop interval draws ugc step fuel k remaining lastSpawn curr).1,
    (s.poseArg.comp i).isFinite = false := by
  intro fuel
  induction fuel with
  | zero =>
    intro k remaining lastSpawn curr hcur s hs
    simp [spawnLoop] at hs
  | succ fuel ih =>
    intro k remaining lastSpawn curr hcur s hs
    by_cases h : interval ≤ remaining
    · simp only [spawnLoop, if_pos h, List.mem_cons] at hs
      rcases hs with hs | hs
      · rw [hs]
        exact hcur
      · refine ih (k + 1) _ (lastSpawn + interval) (curr.stepBy step) ?_ s hs
        rw [comp_stepBy]
        cases hc : (curr.comp i) <;> cases hstep : (step.comp i) <;>
          simp_all [F32.add, F32.isFinite]
    · simp [spawnLoop, if_neg h] at hs

/-- When the per-spawn step has a non-finite component, every pose after the
first one the loop hands to the factory has that component non-finite. -/
theorem spawnLoop_tail_poses_nonfinite (interval : Nat)
    (draws : Nat → Nat × Nat) (ugc : Bool) (step : FTransform) (i : Fin 10)
    (hstep : (step.comp i).isFinite = false)
    (fuel k remaining lastSpawn : Nat) (curr : FTransform) :
    ∀ s ∈ (spawnLoop interval draws ugc step fuel k remaining lastSpawn
      curr).1.tail,
    (s.poseArg.comp i).isFinite = false := by
  match fuel with
  | 0 =>
    intro s hs
    simp [spawnLoop] at hs
  | fuel + 1 =>
    intro s hs
    by_cases h : interval ≤ remaining
    · simp only [spawnLoop, if_pos h, List.tail_cons] at hs
      refine spawnLoop_poses_nonfinite interval draws ugc step i fuel (k + 1) _
        (lastSpawn + interval) (curr.stepBy step) ?_ s hs
      rw [comp_stepBy]
      exact F32_add_nonfinite _ _ hstep
    · simp [spawnLoop, if_neg h] at hs

/-- C10: with a `PreviousGlobalTransform` tracker present, the velocity is
the pose delta divided by the frame delta with no zero guard: on a frame
with `delta_seconds = 0` whose world pose changed in some component, the
computed velocity's component is non-finite (infinite or NaN), and so is
that component of the pose handed to the factory on every catch-up spawn
after the first. -/
theorem C10_zero_dt_velocity_nonfinite (sp : SpewerState)
    (draws : Nat → Nat × Nat) (gx P : FTransform) (lu : Option Nat)
    (i : Fin 10) (x p : ℚ) (hx : gx.comp i = F32.fin x)
    (hp : P.comp i = F32.fin p) (hne : x ≠ p) (s : Spawned)
    (hs : s ∈ (spawn_particles_emitter sp draws gx (some P) (F32.fin 0)
      lu).1.tail) :
    ((velOf (some P) gx (F32.fin 0)).comp i).isFinite = false
    ∧ (s.poseArg.comp i).isFinite = false := by
  have hvel : ((velOf (some P) gx (F32.fin 0)).comp i).isFinite = false := by
    show ((computeVel P gx (F32.fin 0)).comp i).isFinite = false
    rw [comp_computeVel, hx, hp]
    have hsub : F32.sub (F32.fin x) (F32.fin p) = F32.fin (x - p) := rfl
    rw [hsub]
    have hxp : x - p ≠ 0 := sub_ne_zero.mpr hne
    simp only [F32.div, if_pos rfl, if_neg hxp]
    split_ifs <;> rfl
  refine ⟨hvel, ?_⟩
  have hstep : ((stepOf (velOf (some P) gx (F32.fin 0))
      (secsF32 sp.interval)).comp i).isFinite = false := by
    rw [comp_stepOf]
    exact F32_mul_nonfinite_left _ _ hvel
  match lu with
  | none => simp [spawn_particles_emitter] at hs
  | some nowt =>
    by_cases hskip : nowt < sp.lastSpawn
    · simp [spawn_particles_emitter, if_pos hskip] at hs
    · simp only [spawn_particles_emitter, if_neg hskip] at hs
      exact spawnLoop_tail_poses_nonfinite sp.interval draws sp.useGlobalCoords
        _ i hstep _ _ _ _ _ s hs

/-- Witness for C10: emitter at `last_spawn = 0` with tracker pose the
identity, current pose translated by `(1,0,0)`, zero frame delta, a
two-interval backlog: the second spawn's pose is non-finite in the moved
translation component. -/
theorem C10_zero_dt_velocity_nonfinite_witness :
    ((velOf (some FTransform.identity)
        { FTransform.identity with translation := vec3X 1 }
        (F32.fin 0)).comp 0).isFinite = false
    ∧ ((Spawned.poseArg
        (Spawned.mk 2
          (FTransform.stepBy FTransform.identity
            (stepOf
              (velOf (some FTransform.identity)
                { FTransform.identity with translation := vec3X 1 } (F32.fin 0))
              (secsF32 1)))
          true)).comp 0).isFinite = false :=
  C10_zero_dt_velocity_nonfinite ⟨1, 0, 0, false⟩ (fun _ => (0, 0))
    { FTransform.identity with translation := vec3X 1 } FTransform.identity
    (some 2) 0 1 0 (by decide) (by decide) (by decide)
    (Spawned.mk 2
      (FTransform.stepBy FTransform.identity
        (stepOf
          (velOf (some FTransform.identity)
            { FTransform.identity with translation := vec3X 1 } (F32.fin 0))
          (secsF32 1)))
      true)
    (List.mem_cons_self _ _)

/-! ## Target interpolation with unclamped parameter (C8) -/

/-- Finite IEEE subtraction is exact rational subtraction in the model. -/
theorem F32_sub_fin (a b : ℚ) : F32.sub (F32.fin a) (F32.fin b) = F32.fin (a - b) := rfl

/-- Finite IEEE multiplication is exact rational multiplication in the model. -/
theorem F32_mul_fin (a b : ℚ) : F32.mul (F32.fin a) (F32.fin b) = F32.fin (a * b) := rfl

/-- Finite IEEE addition is exact rational addition in the model. -/
theorem F32_add_fin (a b : ℚ) : F32.add (F32.fin a) (F32.fin b) = F32.fin (a + b) := rfl

/-- The `Mul` instance unfolds to `F32.mul`. -/
theorem F32_hmul (a b : F32) : a * b = F32.mul a b := rfl

/-- The `Div` instance unfolds to `F32.div`. -/
theorem F32_hdiv (a b : F32) : a / b = F32.div a b := rfl

/-- Division of finite values by a nonzero finite value is exact. -/
theorem F32_div_fin (a b : ℚ) (hb : b ≠ 0) :
    F32.div (F32.fin a) (F32.fin b) = F32.fin (a / b) := by
  simp [F32.div, hb]

/-- Pointwise evaluation of the componentwise lerp on finite components. -/
theorem cwLerp_fin {n : Nat} (a b : Fin n → F32) (x y s : ℚ) (i : Fin n)
    (ha : a i = F32.fin x) (hb : b i = F32.fin y) :
    cwLerp a b (F32.fin s) i = F32.fin (x + (y - x) * s) := by
  simp [cwLerp, cw2, cwMul, ha, hb, F32_hmul, F32_sub_fin, F32_mul_fin, F32_add_fin]

/-- C8: `TargetScale` and `TargetTransform` set the scale (resp. the full
pose) each frame to the interpolation of the particle's initial state toward
the target with `s = elapsed / lifetime` — componentwise lerp for
translation and scale, the math library's slerp (any function fixing equal
endpoints) for rotation — and `s` is not clamped to `[0, 1]`: at
`elapsed = 5 s`, `lifetime = 10 s` the pose `identity → translation (10,0,0)`
yields translation `(5,0,0)`, and at `elapsed = 20 s` the lerp overshoots to
`(20,0,0)` (scale likewise overshoots its target). -/
theorem C8_target_interpolation_unclamped (slerpF : FQuat → FQuat → F32 → FQuat)
    (hs1 : slerpF FTransform.identity.rotation FTransform.identity.rotation
      (F32.fin (1 / 2)) = FTransform.identity.rotation)
    (hs2 : slerpF FTransform.identity.rotation FTransform.identity.rotation
      (F32.fin 2) = FTransform.identity.rotation) :
    TargetTransform.tickOne slerpF
        ⟨{ FTransform.identity with translation := vec3X 10 }⟩
        (some (5 * NANOS)) 0 (10 * NANOS) FTransform.identity FTransform.identity
      = some { FTransform.identity with translation := vec3X 5 }
    ∧ TargetTransform.tickOne slerpF
        ⟨{ FTransform.identity with translation := vec3X 10 }⟩
        (some (20 * NANOS)) 0 (10 * NANOS) FTransform.identity FTransform.identity
      = some { FTransform.identity with translation := vec3X 20 }
    ∧ TargetScale.tickOne ⟨vec3All 3⟩ (some (5 * NANOS)) 0 (10 * NANOS)
        FTransform.identity FTransform.identity
      = some { FTransform.identity with scale := vec3All 2 }
    ∧ TargetScale.tickOne ⟨vec3All 3⟩ (some (20 * NANOS)) 0 (10 * NANOS)
        FTransform.identity FTransform.identity
      = some { FTransform.identity with scale := vec3All 5 } := by
  have hf1 : durationSinceSecs (5 * NANOS) 0 / secsF32 (10 * NANOS)
      = F32.fin (1 / 2) := by
    rw [durationSinceSecs, secsF32, secsF32, F32_hdiv, F32_div_fin] <;>
      norm_num [NANOS]
  have hf2 : durationSinceSecs (20 * NANOS) 0 / secsF32 (10 * NANOS)
      = F32.fin 2 := by
    rw [durationSinceSecs, secsF32, secsF32, F32_hdiv, F32_div_fin] <;>
      norm_num [NANOS]
  refine ⟨?_, ?_, ?_, ?_⟩
  · simp only [TargetTransform.tickOne, hf1, hs1, Option.some.injEq,
      FTransform.mk.injEq]
    refine ⟨funext fun i => ?_, trivial, funext fun i => ?_⟩
    · by_cases h : i.val = 0
      · rw [cwLerp_fin _ _ 0 10 (1/2) i rfl (by simp [vec3X, h]), vec3X]
        simp [h]
        norm_num
      · rw [cwLerp_fin _ _ 0 0 (1/2) i rfl (by simp [vec3X, h]), vec3X]
        simp [h]
    · rw [cwLerp_fin _ _ 1 1 (1/2) i rfl rfl]
      norm_num [FTransform.identity]
  · simp only [TargetTransform.tickOne, hf2, hs2, Option.some.injEq,
      FTransform.mk.injEq]
    refine ⟨funext fun i => ?_, trivial, funext fun i => ?_⟩
    · by_cases h : i.val = 0
      · rw [cwLerp_fin _ _ 0 10 2 i rfl (by simp [vec3X, h]), vec3X]
        simp [h]
        norm_num
      · rw [cwLerp_fin _ _ 0 0 2 i rfl (by simp [vec3X, h]), vec3X]
        simp [h]
    · rw [cwLerp_fin _ _ 1 1 2 i rfl rfl]
      norm_num [FTransform.identity]
  · simp only [TargetScale.tickOne, hf1, Option.some.injEq, FTransform.mk.injEq]
    refine ⟨trivial, trivial, funext fun i => ?_⟩
    rw [cwLerp_fin _ _ 1 3 (1/2) i rfl rfl, vec3All]
    norm_num
  · simp only [TargetScale.tickOne, hf2, Option.some.injEq, FTransform.mk.injEq]
    refine ⟨trivial, trivial, funext fun i => ?_⟩
    rw [cwLerp_fin _ _ 1 3 2 i rfl rfl, vec3All]
    norm_num

/-- Witness for C8 with a concrete slerp fixing equal endpoints. -/
theorem C8_target_interpolation_unclamped_witness :
    TargetTransform.tickOne (fun a _ _ => a)
        ⟨{ FTransform.identity with translation := vec3X 10 }⟩
        (some (5 * NANOS)) 0 (10 * NANOS) FTransform.identity FTransform.identity
      = some { FTransform.identity with translation := vec3X 5 }
    ∧ TargetTransform.tickOne (fun a _ _ => a)
        ⟨{ FTransform.identity with translation := vec3X 10 }⟩
        (some (20 * NANOS)) 0 (10 * NANOS) FTransform.identity FTransform.identity
      = some { FTransform.identity with translation := vec3X 20 }
    ∧ TargetScale.tickOne ⟨vec3All 3⟩ (some (5 * NANOS)) 0 (10 * NANOS)
        FTransform.identity FTransform.identity
      = some { FTransform.identity with scale := vec3All 2 }
    ∧ TargetScale.tickOne ⟨vec3All 3⟩ (some (20 * NANOS)) 0 (10 * NANOS)
        FTransform.identity FTransform.identity
      = some { FTransform.identity with scale := vec3All 5 } :=
  C8_target_interpolation_unclamped (fun a _ _ => a) rfl rfl
